import Mathlib

/-!
Verification of the ismrmrd-python image record model (src/ismrmrd/image.py).

The Python source is shallowly embedded:
  * ctypes integer fields become Nat values reduced modulo 2 ^ (8 * width) on
    assignment (ctypes stores truncate silently);
  * c_float fields are modelled by their raw 4-byte storage patterns
    (Nat values below 2 ^ 32): none of the modelled operations performs
    floating-point arithmetic on them, and serialization copies bytes;
  * c_int32 array fields (user_int) are likewise modelled by their raw
    4-byte two-complement storage patterns;
  * numpy arrays become a shape list plus a flat value list in C order;
    element values are mathematical integers (float and complex arrays are
    modelled on their exactly representable integer lattice, which is all
    the verified operations ever exercise: numpy rounding is out of scope);
  * raised Python exceptions become an Except error value.
-/

namespace Ismrmrd

/- Constants referenced from constants.py, which is not under src/.
   Modelled from the spec: section 4.1 enumerates the supported element
   kinds; the numeric code values are the standard ISMRMRD enumeration.
   No verified statement depends on the particular numerals, only on the
   codes being distinct. -/

def DATATYPE_USHORT : Nat := 1
def DATATYPE_SHORT : Nat := 2
def DATATYPE_UINT : Nat := 3
def DATATYPE_INT : Nat := 4
def DATATYPE_FLOAT : Nat := 5
def DATATYPE_DOUBLE : Nat := 6
def DATATYPE_CXFLOAT : Nat := 7
def DATATYPE_CXDOUBLE : Nat := 8

def POSITION_LENGTH : Nat := 3
def DIRECTION_LENGTH : Nat := 3
def PHYS_STAMPS : Nat := 3
def USER_INTS : Nat := 8
def USER_FLOATS : Nat := 8

/-- Equality of Except values is decidable when it is on both sides. -/
instance {ε α : Type} [DecidableEq ε] [DecidableEq α] : DecidableEq (Except ε α) := by
  intro x y
  cases x <;> cases y
  case error.error e f => exact decidable_of_iff (e = f) (by simp)
  case ok.ok a b => exact decidable_of_iff (a = b) (by simp)
  all_goals exact isFalse (by simp)

/-- Python exception kinds raised by the embedded code paths. -/
inductive PyError where
  | typeError
  | valueError
  | attributeError
deriving DecidableEq, Repr

/-- Runtime numpy dtypes that appear in the embedding.  The first eight are
the supported kinds registered in dtype_mapping; the remaining ones are
sample unsupported dtypes used to express failure outside the domain.
Note that np.dtype int is the native 64-bit integer on the target
platform, distinct from int32. -/
inductive NpDType where
  | uint16
  | int16
  | uint32
  | int64
  | float32
  | float64
  | complex64
  | complex128
  | int8
  | uint8
  | int32
  | float16
deriving DecidableEq, Repr

/-- The dtype_mapping dict of image.py: element-kind code to numpy dtype.
A dict get with a missing key yields none. -/
def dtype_mapping (val : Nat) : Option NpDType :=
  if val = DATATYPE_USHORT then some .uint16
  else if val = DATATYPE_SHORT then some .int16
  else if val = DATATYPE_UINT then some .uint32
  else if val = DATATYPE_INT then some .int64
  else if val = DATATYPE_FLOAT then some .float32
  else if val = DATATYPE_DOUBLE then some .float64
  else if val = DATATYPE_CXFLOAT then some .complex64
  else if val = DATATYPE_CXDOUBLE then some .complex128
  else none

/-- The key set of dtype_mapping, in declaration order. -/
def datatype_codes : List Nat :=
  [DATATYPE_USHORT, DATATYPE_SHORT, DATATYPE_UINT, DATATYPE_INT,
   DATATYPE_FLOAT, DATATYPE_DOUBLE, DATATYPE_CXFLOAT, DATATYPE_CXDOUBLE]

/-- The inverse_dtype_mapping dict comprehension of image.py: the first code
whose dtype equals the argument, if any. -/
def inverse_dtype_mapping (dtype : NpDType) : Option Nat :=
  (datatype_codes.find? (fun k => dtype_mapping k == some dtype))

/-- get_dtype_from_data_type of image.py: raises TypeError on an
unregistered code. -/
def get_dtype_from_data_type (val : Nat) : Except PyError NpDType :=
  match dtype_mapping val with
  | none => .error .typeError
  | some dtype => .ok dtype

/-- get_data_type_from_dtype of image.py: raises TypeError on an
unsupported dtype. -/
def get_data_type_from_dtype (dtype : NpDType) : Except PyError Nat :=
  match inverse_dtype_mapping dtype with
  | none => .error .typeError
  | some type => .ok type

/-- numpy itemsize of each modelled dtype, in bytes. -/
def NpDType.itemsize : NpDType → Nat
  | .uint16 => 2
  | .int16 => 2
  | .uint32 => 4
  | .int64 => 8
  | .float32 => 4
  | .float64 => 8
  | .complex64 => 8
  | .complex128 => 16
  | .int8 => 1
  | .uint8 => 1
  | .int32 => 4
  | .float16 => 2

/-- The ImageHeader ctypes structure of image.py, field for field.  Scalar
ctypes integers are Nat values kept below 2 ^ (8 * width) by the setters;
fixed-length ctypes arrays are Nat lists of the declared arity.  Float
fields hold raw 4-byte storage patterns. -/
structure ImageHeader where
  version : Nat
  data_type : Nat
  flags : Nat
  measurement_uid : Nat
  matrix_size : List Nat
  field_of_view : List Nat
  channels : Nat
  position : List Nat
  read_dir : List Nat
  phase_dir : List Nat
  slice_dir : List Nat
  patient_table_position : List Nat
  average : Nat
  slice : Nat
  contrast : Nat
  phase : Nat
  repetition : Nat
  set : Nat
  acquisition_time_stamp : Nat
  physiology_time_stamp : List Nat
  image_type : Nat
  image_index : Nat
  image_series_index : Nat
  user_int : List Nat
  user_float : List Nat
  attribute_string_len : Nat
deriving DecidableEq, Repr

/-- ImageHeader(): ctypes zero-initializes every field. -/
def ImageHeader.new : ImageHeader where
  version := 0
  data_type := 0
  flags := 0
  measurement_uid := 0
  matrix_size := [0, 0, 0]
  field_of_view := [0, 0, 0]
  channels := 0
  position := [0, 0, 0]
  read_dir := [0, 0, 0]
  phase_dir := [0, 0, 0]
  slice_dir := [0, 0, 0]
  patient_table_position := [0, 0, 0]
  average := 0
  slice := 0
  contrast := 0
  phase := 0
  repetition := 0
  set := 0
  acquisition_time_stamp := 0
  physiology_time_stamp := [0, 0, 0]
  image_type := 0
  image_index := 0
  image_series_index := 0
  user_int := [0, 0, 0, 0, 0, 0, 0, 0]
  user_float := [0, 0, 0, 0, 0, 0, 0, 0]
  attribute_string_len := 0

/- Flag operations (ImageHeader.clearAllFlags, isFlagSet, setFlag,
   clearFlag).  The flags field is a c_uint64, so every store is reduced
   modulo 2 ^ 64. -/

/-- The bitmask 1 << (val - 1) built by the flag methods. -/
def flagBitmask (val : Nat) : Nat := 1 <<< (val - 1)

/-- isFlagSet on a raw flags value: (flags & (1 << (val-1))) > 0. -/
def isFlagSetN (flags val : Nat) : Bool := decide (0 < flags &&& flagBitmask val)

/-- setFlag on a raw flags value: flags |= 1 << (val-1), stored in c_uint64. -/
def setFlagN (flags val : Nat) : Nat := (flags ||| flagBitmask val) % 2 ^ 64

/-- clearFlag on a raw flags value: subtract the bitmask, but only when the
flag is currently set. -/
def clearFlagN (flags val : Nat) : Nat :=
  if isFlagSetN flags val then (flags - flagBitmask val) % 2 ^ 64 else flags

def ImageHeader.clearAllFlags (h : ImageHeader) : ImageHeader := { h with flags := 0 }

def ImageHeader.isFlagSet (h : ImageHeader) (val : Nat) : Bool := isFlagSetN h.flags val

def ImageHeader.setFlag (h : ImageHeader) (val : Nat) : ImageHeader :=
  { h with flags := setFlagN h.flags val }

def ImageHeader.clearFlag (h : ImageHeader) (val : Nat) : ImageHeader :=
  { h with flags := clearFlagN h.flags val }

/- Header field assignment (ctypes setattr semantics). -/

/-- Truncation performed by a ctypes integer store of byte width w. -/
def truncW (w n : Nat) : Nat := n % 2 ^ (8 * w)

/-- Element-wise truncation for a ctypes fixed-length array store. -/
def truncVec (w : Nat) (l : List Nat) : List Nat := l.map (truncW w)

/-- Names of the ImageHeader fields, in declaration order. -/
inductive HField where
  | version
  | data_type
  | flags
  | measurement_uid
  | matrix_size
  | field_of_view
  | channels
  | position
  | read_dir
  | phase_dir
  | slice_dir
  | patient_table_position
  | average
  | slice
  | contrast
  | phase
  | repetition
  | set
  | acquisition_time_stamp
  | physiology_time_stamp
  | image_type
  | image_index
  | image_series_index
  | user_int
  | user_float
  | attribute_string_len
deriving DecidableEq, Repr

/-- All header field names, in declaration order (the _fields_ list). -/
def allHFields : List HField :=
  [.version, .data_type, .flags, .measurement_uid, .matrix_size, .field_of_view,
   .channels, .position, .read_dir, .phase_dir, .slice_dir, .patient_table_position,
   .average, .slice, .contrast, .phase, .repetition, .set, .acquisition_time_stamp,
   .physiology_time_stamp, .image_type, .image_index, .image_series_index,
   .user_int, .user_float, .attribute_string_len]

/-- A Python value assigned to or read from a header field: either an
integer or a sequence of integers. -/
inductive FieldVal where
  | scalar (n : Nat)
  | vector (l : List Nat)
deriving DecidableEq, Repr

/-- getattr on an ImageHeader field. -/
def getHeaderField (h : ImageHeader) : HField → FieldVal
  | .version => .scalar h.version
  | .data_type => .scalar h.data_type
  | .flags => .scalar h.flags
  | .measurement_uid => .scalar h.measurement_uid
  | .matrix_size => .vector h.matrix_size
  | .field_of_view => .vector h.field_of_view
  | .channels => .scalar h.channels
  | .position => .vector h.position
  | .read_dir => .vector h.read_dir
  | .phase_dir => .vector h.phase_dir
  | .slice_dir => .vector h.slice_dir
  | .patient_table_position => .vector h.patient_table_position
  | .average => .scalar h.average
  | .slice => .scalar h.slice
  | .contrast => .scalar h.contrast
  | .phase => .scalar h.phase
  | .repetition => .scalar h.repetition
  | .set => .scalar h.set
  | .acquisition_time_stamp => .scalar h.acquisition_time_stamp
  | .physiology_time_stamp => .vector h.physiology_time_stamp
  | .image_type => .scalar h.image_type
  | .image_index => .scalar h.image_index
  | .image_series_index => .scalar h.image_series_index
  | .user_int => .vector h.user_int
  | .user_float => .vector h.user_float
  | .attribute_string_len => .scalar h.attribute_string_len

/-- setattr on an ImageHeader field: ctypes truncates integer stores
silently, raises TypeError when an integer meets an array field or an
array meets an integer field, and ValueError when a sequence has the
wrong length. -/
def setHeaderField (h : ImageHeader) : HField → FieldVal → Except PyError ImageHeader
  | .version, .scalar n => .ok { h with version := truncW 2 n }
  | .data_type, .scalar n => .ok { h with data_type := truncW 2 n }
  | .flags, .scalar n => .ok { h with flags := truncW 8 n }
  | .measurement_uid, .scalar n => .ok { h with measurement_uid := truncW 4 n }
  | .matrix_size, .vector l =>
      if l.length = 3 then .ok { h with matrix_size := truncVec 2 l } else .error .valueError
  | .field_of_view, .vector l =>
      if l.length = 3 then .ok { h with field_of_view := truncVec 4 l } else .error .valueError
  | .channels, .scalar n => .ok { h with channels := truncW 2 n }
  | .position, .vector l =>
      if l.length = 3 then .ok { h with position := truncVec 4 l } else .error .valueError
  | .read_dir, .vector l =>
      if l.length = 3 then .ok { h with read_dir := truncVec 4 l } else .error .valueError
  | .phase_dir, .vector l =>
      if l.length = 3 then .ok { h with phase_dir := truncVec 4 l } else .error .valueError
  | .slice_dir, .vector l =>
      if l.length = 3 then .ok { h with slice_dir := truncVec 4 l } else .error .valueError
  | .patient_table_position, .vector l =>
      if l.length = 3 then .ok { h with patient_table_position := truncVec 4 l }
      else .error .valueError
  | .average, .scalar n => .ok { h with average := truncW 2 n }
  | .slice, .scalar n => .ok { h with slice := truncW 2 n }
  | .contrast, .scalar n => .ok { h with contrast := truncW 2 n }
  | .phase, .scalar n => .ok { h with phase := truncW 2 n }
  | .repetition, .scalar n => .ok { h with repetition := truncW 2 n }
  | .set, .scalar n => .ok { h with set := truncW 2 n }
  | .acquisition_time_stamp, .scalar n => .ok { h with acquisition_time_stamp := truncW 4 n }
  | .physiology_time_stamp, .vector l =>
      if l.length = 3 then .ok { h with physiology_time_stamp := truncVec 4 l }
      else .error .valueError
  | .image_type, .scalar n => .ok { h with image_type := truncW 2 n }
  | .image_index, .scalar n => .ok { h with image_index := truncW 2 n }
  | .image_series_index, .scalar n => .ok { h with image_series_index := truncW 2 n }
  | .user_int, .vector l =>
      if l.length = 8 then .ok { h with user_int := truncVec 4 l } else .error .valueError
  | .user_float, .vector l =>
      if l.length = 8 then .ok { h with user_float := truncVec 4 l } else .error .valueError
  | .attribute_string_len, .scalar n => .ok { h with attribute_string_len := truncW 4 n }
  | _, _ => .error .typeError

/- numpy arrays and the operations image.py applies to them. -/

/-- A numpy ndarray: dimension list, dtype, and the element values flattened
in C (row-major) order. -/
structure NDArray where
  shape : List Nat
  dtype : NpDType
  flat : List Int
deriving DecidableEq, Repr

/-- Shape and flat length agree. -/
def NDArray.wellFormed (a : NDArray) : Prop := a.flat.length = a.shape.prod

instance (a : NDArray) : Decidable a.wellFormed := by
  unfold NDArray.wellFormed; infer_instance

/-- np.resize value semantics on the flattened contents: the old contents
are repeated cyclically to fill the requested total, except that resizing
an empty array yields zeros. -/
def npResizeFlat (old : List Int) (total : Nat) : List Int :=
  if old.length = 0 then List.replicate total 0
  else (List.range total).map (fun i => old.getD (i % old.length) 0)

/-- Integer wraparound into an unsigned width, as numpy integer casts do. -/
def wrapU (w : Nat) (v : Int) : Int := v % ((2 : Int) ^ (8 * w))

/-- Integer wraparound into a signed width. -/
def wrapS (w : Nat) (v : Int) : Int :=
  (v + (2 : Int) ^ (8 * w - 1)) % ((2 : Int) ^ (8 * w)) - (2 : Int) ^ (8 * w - 1)

/-- Value conversion performed by ndarray.astype.  Casts between integer
kinds wrap; casts into float or complex kinds are modelled exactly on the
integer lattice (the verified code paths only exercise value-preserving
casts, so numpy rounding never enters). -/
def convertVal (src dst : NpDType) (v : Int) : Int :=
  if src = dst then v
  else
    match dst with
    | .uint16 => wrapU 2 v
    | .int16 => wrapS 2 v
    | .uint32 => wrapU 4 v
    | .int64 => wrapS 8 v
    | .uint8 => wrapU 1 v
    | .int8 => wrapS 1 v
    | .int32 => wrapS 4 v
    | _ => v

/-- Left-pad a shape with singleton dimensions up to rank k. -/
def pad1 (k : Nat) (s : List Nat) : List Nat := List.replicate (k - s.length) 1 ++ s

/-- Row-major linear index of a multi-index in a shape. -/
def flatIndex : List Nat → List Nat → Nat
  | _, [] => 0
  | [], _ => 0
  | _ :: ds, i :: is => i * ds.prod + flatIndex ds is

/-- All multi-indices of a shape, in row-major order. -/
def allIndices : List Nat → List (List Nat)
  | [] => [[]]
  | d :: ds => (List.range d).flatMap (fun i => (allIndices ds).map (fun t => i :: t))

/-- Each source dimension must equal the target dimension or be 1. -/
def broadcastOKList (target source : List Nat) : Bool :=
  (source.zip target).all (fun p => p.1 == p.2 || p.1 == 1)

/-- Collapse a target multi-index onto a source whose singleton dimensions
are broadcast. -/
def clampIdx (source idx : List Nat) : List Nat :=
  List.zipWith (fun d i => if d = 1 then 0 else i) source idx

/-- numpy broadcasting of an array onto a target shape, as performed by a
sliced assignment dest[:] = a; none when the shapes are incompatible. -/
def broadcastTo (a : NDArray) (target : List Nat) : Option (List Int) :=
  if a.shape.length ≤ target.length then
    let src := pad1 target.length a.shape
    if broadcastOKList target src then
      some ((allIndices target).map (fun idx => a.flat.getD (flatIndex src (clampIdx src idx)) 0))
    else none
  else none

/- The Image record. -/

/-- An Image owns a header, a 4-D data buffer, and an attribute string. -/
structure Image where
  head : ImageHeader
  data : NDArray
  attribute_string : String
deriving DecidableEq, Repr

/-- The Image.__readonly tuple. -/
def readonlyFields : List HField :=
  [.data_type, .matrix_size, .channels, .attribute_string_len]

/-- The Image.__ignore entry.  The source spells it as a bare string and
tests membership with a substring check, but no other field name is a
substring of matrix_size, so exactly this field is skipped. -/
def ignoreFields : List HField := [.matrix_size]

/-- The header fields for which Image.__init__ installs generated
property accessors: every _fields_ entry not in the ignore set. -/
def generatedFields : List HField :=
  allHFields.filter (fun f => !(ignoreFields.contains f))

/-- Image(head, attribute_string): copy the header, allocate the buffer
with the header-declared dtype and shape (np.empty contents are modelled
as zeros), then check the attribute string length against the header
field, raising ValueError on mismatch. -/
def Image.fromHeader (head : ImageHeader) (attribute_string : String) : Except PyError Image := do
  let dt ← get_dtype_from_data_type head.data_type
  let shape := [head.channels, head.matrix_size.getD 2 0,
                head.matrix_size.getD 1 0, head.matrix_size.getD 0 0]
  let data : NDArray := { shape := shape, dtype := dt, flat := List.replicate shape.prod 0 }
  if attribute_string.length ≠ head.attribute_string_len then .error .valueError
  else .ok { head := head, data := data, attribute_string := attribute_string }

/-- Image(): default-constructed image with a complex64 empty buffer. -/
def Image.new : Image :=
  { head := { ImageHeader.new with data_type := DATATYPE_CXFLOAT }
    data := { shape := [1, 1, 1, 0], dtype := .complex64, flat := [] }
    attribute_string := "" }

/-- The generated property getter plus the matrix_size class property:
matrix_size reads the buffer shape slice data.shape[1:4]; every other
field reads the header (read-only fields through copy.copy, which on
these values is a value copy). -/
def Image.getField (img : Image) (f : HField) : FieldVal :=
  if f = .matrix_size then .vector ((img.data.shape.drop 1).take 3)
  else getHeaderField img.head f

/-- The generated property setter: read-only fields raise AttributeError;
matrix_size has no setter at all (its class property defines none), which
also surfaces as AttributeError; other fields assign into the header. -/
def Image.setField (img : Image) (f : HField) (v : FieldVal) : Except PyError Image :=
  if f = .matrix_size then .error .attributeError
  else if readonlyFields.contains f then .error .attributeError
  else do
    let h ← setHeaderField img.head f v
    .ok { img with head := h }

/-- Image.getHead: deepcopy of the header (a value copy here). -/
def Image.getHead (img : Image) : ImageHeader := img.head

/-- Image.resize: replace the buffer with np.resize of it; the header is
not touched. -/
def Image.resize (img : Image) (nc nz ny nx : Nat) : Image :=
  { img with
    data := { shape := [nc, nz, ny, nx], dtype := img.data.dtype,
              flat := npResizeFlat img.data.flat ([nc, nz, ny, nx].prod) } }

/-- Image.setDataType: astype conversion of the buffer to the dtype of the
given element-kind code. -/
def Image.setDataType (img : Image) (val : Nat) : Except PyError Image := do
  let dt ← get_dtype_from_data_type val
  .ok { img with
        data := { img.data with
                  dtype := dt
                  flat := img.data.flat.map (convertVal img.data.dtype dt) } }

/-- Image.setHead: copy the header in, then setDataType and resize from the
new header fields. -/
def Image.setHead (img : Image) (hdr : ImageHeader) : Except PyError Image := do
  let img1 : Image := { img with head := hdr }
  let img2 ← img1.setDataType hdr.data_type
  .ok (img2.resize hdr.channels (hdr.matrix_size.getD 2 0)
        (hdr.matrix_size.getD 1 0) (hdr.matrix_size.getD 0 0))

/- Construction from an array. -/

/-- The acquisition argument of from_array, reduced to the nine fields that
ImageHeader.from_acquisition copies over. -/
structure AcquisitionLike where
  version : Nat
  measurement_uid : Nat
  position : List Nat
  read_dir : List Nat
  phase_dir : List Nat
  slice_dir : List Nat
  patient_table_position : List Nat
  acquisition_time_stamp : Nat
  physiology_time_stamp : List Nat
deriving DecidableEq, Repr

/-- An all-zero acquisition argument. -/
def AcquisitionLike.zero : AcquisitionLike :=
  { version := 0, measurement_uid := 0, position := [0, 0, 0], read_dir := [0, 0, 0]
    phase_dir := [0, 0, 0], slice_dir := [0, 0, 0], patient_table_position := [0, 0, 0]
    acquisition_time_stamp := 0, physiology_time_stamp := [0, 0, 0] }

/-- The acquisition-fields copy loop of ImageHeader.from_acquisition: each
whitelisted field is assigned through the ctypes store. -/
def applyAcqFields (acq : AcquisitionLike) (h : ImageHeader) : ImageHeader :=
  { h with
    version := truncW 2 acq.version
    measurement_uid := truncW 4 acq.measurement_uid
    position := truncVec 4 acq.position
    read_dir := truncVec 4 acq.read_dir
    phase_dir := truncVec 4 acq.phase_dir
    slice_dir := truncVec 4 acq.slice_dir
    patient_table_position := truncVec 4 acq.patient_table_position
    acquisition_time_stamp := truncW 4 acq.acquisition_time_stamp
    physiology_time_stamp := truncVec 4 acq.physiology_time_stamp }

/-- ImageHeader.from_acquisition: start from a zeroed header, copy the
whitelisted acquisition fields, then assign every keyword argument. -/
def ImageHeader.from_acquisition (acq : AcquisitionLike)
    (kwargs : List (HField × FieldVal)) : Except PyError ImageHeader :=
  kwargs.foldlM (fun h p => setHeaderField h p.1 p.2) (applyAcqFields acq ImageHeader.new)

/-- Python dict(base, **kw): keys of base in order with kw values taking
precedence, followed by the kw keys not present in base. -/
def mergeDict (base kw : List (HField × FieldVal)) : List (HField × FieldVal) :=
  base.map (fun p => (p.1, ((kw.find? (fun q => q.1 == p.1)).map Prod.snd).getD p.2))
    ++ kw.filter (fun q => base.all (fun p => p.1 != q.1))

/-- The shape_to_header_format helper of Image.from_array: reverse the
shape and positionally default first, second, third, nchannels to 1;
more than four dimensions overflow the positional parameters and raise
TypeError.  Returns (nchannels, first, second, third). -/
def shape_to_header_format (shape : List Nat) : Except PyError (Nat × Nat × Nat × Nat) :=
  match shape.reverse with
  | [] => .ok (1, 1, 1, 1)
  | [a] => .ok (1, a, 1, 1)
  | [a, b] => .ok (1, a, b, 1)
  | [a, b, c] => .ok (1, a, b, c)
  | [a, b, c, d] => .ok (d, a, b, c)
  | _ => .error .typeError

/-- Image.from_array: derive channels and matrix_size from the array
shape and the element-kind code from its dtype, merge the keyword
arguments over those derived entries, build the header via
from_acquisition, construct the image, and broadcast-assign the array
into the buffer. -/
def Image.from_array (array : NDArray) (acquisition : AcquisitionLike)
    (kwargs : List (HField × FieldVal)) : Except PyError Image := do
  let fmt ← shape_to_header_format array.shape
  let dt ← get_data_type_from_dtype array.dtype
  let image_data : List (HField × FieldVal) :=
    [(.data_type, .scalar dt), (.channels, .scalar fmt.1),
     (.matrix_size, .vector [fmt.2.1, fmt.2.2.1, fmt.2.2.2])]
  let header ← ImageHeader.from_acquisition acquisition (mergeDict image_data kwargs)
  let image ← Image.fromHeader header ""
  match broadcastTo array image.data.shape with
  | none => .error .valueError
  | some vals =>
      .ok { image with
            data := { image.data with
                      flat := vals.map (convertVal array.dtype image.data.dtype) } }

/- Flag call sequences, for stating that isFlagSet reflects the history of
   setFlag and clearFlag calls. -/

/-- One flag-method call. -/
inductive FlagOp where
  | set (n : Nat)
  | clear (n : Nat)
deriving DecidableEq, Repr

/-- The flag number touched by a call is in the valid range 1..64. -/
def FlagOp.idxOK : FlagOp → Bool
  | .set n => decide (1 ≤ n ∧ n ≤ 64)
  | .clear n => decide (1 ≤ n ∧ n ≤ 64)

/-- Run a sequence of flag calls on a raw flags value. -/
def applyFlagOpsN (f : Nat) (ops : List FlagOp) : Nat :=
  ops.foldl
    (fun g op =>
      match op with
      | .set n => setFlagN g n
      | .clear n => clearFlagN g n) f

/-- Run a sequence of flag calls on a header. -/
def ImageHeader.applyFlagOps (h : ImageHeader) (ops : List FlagOp) : ImageHeader :=
  ops.foldl
    (fun g op =>
      match op with
      | .set n => g.setFlag n
      | .clear n => g.clearFlag n) h

/-- The reference meaning of a call sequence for one flag number: the last
call touching that number wins, starting from a given state. -/
def flagSpecFold (b : Bool) (n : Nat) (ops : List FlagOp) : Bool :=
  ops.foldl
    (fun c op =>
      match op with
      | .set m => if m = n then true else c
      | .clear m => if m = n then false else c) b

/- Byte-stream codec.
   Modelled from the spec: the serialization and deserialization code of
   this repository (serialize_into, deserialize_from, to_bytes, from_bytes)
   is not under src/, only its tests are, so the codec below follows the
   byte layout of spec sections 4.4 and 6 for the image record: the packed
   header fields in declaration order with their ctypes widths (pack(2)
   introduces no padding here, every offset being even), then the data
   buffer bytes, then the attribute-string bytes, with short reads failing
   as truncated input and trailing extra bytes permitted. -/

/-- Codec failures distinguished by the spec error taxonomy. -/
inductive SerError where
  | truncatedInput
  | unsupportedKind
deriving DecidableEq, Repr

/-- Little-endian encoding of an integer into w bytes. -/
def encodeLE : Nat → Nat → List Nat
  | 0, _ => []
  | w + 1, n => n % 256 :: encodeLE w (n / 256)

/-- Little-endian value of a byte list. -/
def decodeLE (bs : List Nat) : Nat := bs.foldr (fun b acc => b + 256 * acc) 0

/-- Encoding of a fixed-length array field, element by element. -/
def encVec (w : Nat) (l : List Nat) : List Nat := (l.map (encodeLE w)).flatten

/-- Read exactly w bytes from the source, failing on a short read. -/
def readBytes (w : Nat) (bs : List Nat) : Except SerError (List Nat × List Nat) :=
  if w ≤ bs.length then .ok (bs.take w, bs.drop w) else .error .truncatedInput

/-- Read one w-byte little-endian integer. -/
def readWord (w : Nat) (bs : List Nat) : Except SerError (Nat × List Nat) := do
  let (chunk, rest) ← readBytes w bs
  .ok (decodeLE chunk, rest)

/-- Read k consecutive w-byte integers. -/
def readVec (w : Nat) : Nat → List Nat → Except SerError (List Nat × List Nat)
  | 0, bs => .ok ([], bs)
  | k + 1, bs => do
    let (n, bs1) ← readWord w bs
    let (l, bs2) ← readVec w k bs1
    .ok (n :: l, bs2)

/-- Exact byte image of the packed header: every field in declaration
order at its ctypes width. -/
def serializeHeader (h : ImageHeader) : List Nat :=
  encodeLE 2 h.version ++ encodeLE 2 h.data_type ++ encodeLE 8 h.flags ++
  encodeLE 4 h.measurement_uid ++ encVec 2 h.matrix_size ++ encVec 4 h.field_of_view ++
  encodeLE 2 h.channels ++ encVec 4 h.position ++ encVec 4 h.read_dir ++
  encVec 4 h.phase_dir ++ encVec 4 h.slice_dir ++ encVec 4 h.patient_table_position ++
  encodeLE 2 h.average ++ encodeLE 2 h.slice ++ encodeLE 2 h.contrast ++
  encodeLE 2 h.phase ++ encodeLE 2 h.repetition ++ encodeLE 2 h.set ++
  encodeLE 4 h.acquisition_time_stamp ++ encVec 4 h.physiology_time_stamp ++
  encodeLE 2 h.image_type ++ encodeLE 2 h.image_index ++ encodeLE 2 h.image_series_index ++
  encVec 4 h.user_int ++ encVec 4 h.user_float ++ encodeLE 4 h.attribute_string_len

/-- Parse the packed header back, field by field. -/
def deserializeHeader (bs : List Nat) : Except SerError (ImageHeader × List Nat) := do
  let (version, bs) ← readWord 2 bs
  let (data_type, bs) ← readWord 2 bs
  let (flags, bs) ← readWord 8 bs
  let (measurement_uid, bs) ← readWord 4 bs
  let (matrix_size, bs) ← readVec 2 3 bs
  let (field_of_view, bs) ← readVec 4 3 bs
  let (channels, bs) ← readWord 2 bs
  let (position, bs) ← readVec 4 3 bs
  let (read_dir, bs) ← readVec 4 3 bs
  let (phase_dir, bs) ← readVec 4 3 bs
  let (slice_dir, bs) ← readVec 4 3 bs
  let (patient_table_position, bs) ← readVec 4 3 bs
  let (average, bs) ← readWord 2 bs
  let (slice, bs) ← readWord 2 bs
  let (contrast, bs) ← readWord 2 bs
  let (phase, bs) ← readWord 2 bs
  let (repetition, bs) ← readWord 2 bs
  let (set, bs) ← readWord 2 bs
  let (acquisition_time_stamp, bs) ← readWord 4 bs
  let (physiology_time_stamp, bs) ← readVec 4 3 bs
  let (image_type, bs) ← readWord 2 bs
  let (image_index, bs) ← readWord 2 bs
  let (image_series_index, bs) ← readWord 2 bs
  let (user_int, bs) ← readVec 4 8 bs
  let (user_float, bs) ← readVec 4 8 bs
  let (attribute_string_len, bs) ← readWord 4 bs
  .ok ({ version := version, data_type := data_type, flags := flags
         measurement_uid := measurement_uid, matrix_size := matrix_size
         field_of_view := field_of_view, channels := channels, position := position
         read_dir := read_dir, phase_dir := phase_dir, slice_dir := slice_dir
         patient_table_position := patient_table_position, average := average
         slice := slice, contrast := contrast, phase := phase, repetition := repetition
         set := set, acquisition_time_stamp := acquisition_time_stamp
         physiology_time_stamp := physiology_time_stamp, image_type := image_type
         image_index := image_index, image_series_index := image_series_index
         user_int := user_int, user_float := user_float
         attribute_string_len := attribute_string_len }, bs)

/-- A header is valid for the wire when every scalar fits its ctypes width
and every fixed array has its declared arity with fitting elements. -/
def ImageHeader.valid (h : ImageHeader) : Prop :=
  h.version < 256 ^ 2 ∧ h.data_type < 256 ^ 2 ∧
  h.flags < 256 ^ 8 ∧ h.measurement_uid < 256 ^ 4 ∧
  h.matrix_size.length = 3 ∧ (∀ x ∈ h.matrix_size, x < 256 ^ 2) ∧
  h.field_of_view.length = 3 ∧ (∀ x ∈ h.field_of_view, x < 256 ^ 4) ∧
  h.channels < 256 ^ 2 ∧
  h.position.length = 3 ∧ (∀ x ∈ h.position, x < 256 ^ 4) ∧
  h.read_dir.length = 3 ∧ (∀ x ∈ h.read_dir, x < 256 ^ 4) ∧
  h.phase_dir.length = 3 ∧ (∀ x ∈ h.phase_dir, x < 256 ^ 4) ∧
  h.slice_dir.length = 3 ∧ (∀ x ∈ h.slice_dir, x < 256 ^ 4) ∧
  h.patient_table_position.length = 3 ∧ (∀ x ∈ h.patient_table_position, x < 256 ^ 4) ∧
  h.average < 256 ^ 2 ∧ h.slice < 256 ^ 2 ∧
  h.contrast < 256 ^ 2 ∧ h.phase < 256 ^ 2 ∧
  h.repetition < 256 ^ 2 ∧ h.set < 256 ^ 2 ∧
  h.acquisition_time_stamp < 256 ^ 4 ∧
  h.physiology_time_stamp.length = 3 ∧ (∀ x ∈ h.physiology_time_stamp, x < 256 ^ 4) ∧
  h.image_type < 256 ^ 2 ∧ h.image_index < 256 ^ 2 ∧
  h.image_series_index < 256 ^ 2 ∧
  h.user_int.length = 8 ∧ (∀ x ∈ h.user_int, x < 256 ^ 4) ∧
  h.user_float.length = 8 ∧ (∀ x ∈ h.user_float, x < 256 ^ 4) ∧
  h.attribute_string_len < 256 ^ 4

instance (h : ImageHeader) : Decidable h.valid := by
  unfold ImageHeader.valid
  infer_instance

/-- Byte width of the stored element kind, per the field codec. -/
def storageWidth (code : Nat) : Option Nat := (dtype_mapping code).map NpDType.itemsize

/-- Number of data-buffer bytes the header declares. -/
def expectedDataBytes (h : ImageHeader) (itemsize : Nat) : Nat :=
  h.channels * h.matrix_size.prod * itemsize

/-- Serialize an image record: header bytes, then the raw data-buffer
bytes, then the raw attribute-string bytes. -/
def serializeImageBytes (h : ImageHeader) (dataBytes attrBytes : List Nat) : List Nat :=
  serializeHeader h ++ dataBytes ++ attrBytes

/-- Deserialize an image record: decode the header, size the data read
from its count fields and element kind, then read the attribute string;
bytes beyond the expected total are ignored. -/
def deserializeImageBytes (bs : List Nat) :
    Except SerError (ImageHeader × List Nat × List Nat) := do
  let (h, bs1) ← deserializeHeader bs
  match storageWidth h.data_type with
  | none => .error .unsupportedKind
  | some itemsize =>
    let (dataBytes, bs2) ← readBytes (expectedDataBytes h itemsize) bs1
    let (attrBytes, _) ← readBytes h.attribute_string_len bs2
    .ok (h, dataBytes, attrBytes)

/- Concrete sample records used as inputs of witness statements. -/

/-- A header declaring one uint16 element: channels 1, matrix 1x1x1. -/
def hdrUShort111 : ImageHeader :=
  { ImageHeader.new with data_type := DATATYPE_USHORT, channels := 1, matrix_size := [1, 1, 1] }

/-- An image holding the single uint16 value 5. -/
def imgFive : Image :=
  { head := ImageHeader.new
    data := { shape := [1, 1, 1, 1], dtype := NpDType.uint16, flat := [5] }
    attribute_string := "" }

/-! Theorems. -/

/-! Reduction lemmas for the Except monad operations the embedding uses. -/

lemma okBind {ε α β : Type} (a : α) (f : α → Except ε β) :
    (Except.ok a >>= f : Except ε β) = f a := rfl

lemma errorBind {ε α β : Type} (e : ε) (f : α → Except ε β) :
    ((Except.error e : Except ε α) >>= f : Except ε β) = .error e := rfl

lemma okMap {ε α β : Type} (a : α) (f : α → β) :
    (Except.ok a : Except ε α).map f = .ok (f a) := rfl

lemma errorMap {ε α β : Type} (e : ε) (f : α → β) :
    (Except.error e : Except ε α).map f = .error e := rfl

/-! Bit-level helper lemmas for the flag operations. -/

lemma flagBitmask_eq (n : Nat) : flagBitmask n = 2 ^ (n - 1) := by
  simp [flagBitmask, Nat.one_shiftLeft]

lemma isFlagSetN_eq_testBit (f n : Nat) : isFlagSetN f n = f.testBit (n - 1) := by
  unfold isFlagSetN
  rw [flagBitmask_eq, Nat.and_two_pow]
  cases h : f.testBit (n - 1) <;> simp [h, Nat.two_pow_pos]

lemma flagBitmask_lt (n : Nat) (hn : n ≤ 64) : flagBitmask n < 2 ^ 64 := by
  rw [flagBitmask_eq]
  exact Nat.pow_lt_pow_right (by norm_num) (by omega)

lemma setFlagN_eq_or {f n : Nat} (hf : f < 2 ^ 64) (hn : n ≤ 64) :
    setFlagN f n = f ||| 2 ^ (n - 1) := by
  unfold setFlagN
  rw [flagBitmask_eq]
  exact Nat.mod_eq_of_lt
    (Nat.or_lt_two_pow hf (by rw [← flagBitmask_eq]; exact flagBitmask_lt n hn))

lemma setFlagN_testBit {f n : Nat} (hf : f < 2 ^ 64) (hn : n ≤ 64) (i : Nat) :
    (setFlagN f n).testBit i = if i = n - 1 then true else f.testBit i := by
  rw [setFlagN_eq_or hf hn, Nat.testBit_or, Nat.testBit_two_pow]
  by_cases h : i = n - 1
  · simp [h]
  · have : ¬ (n - 1 = i) := fun e => h e.symm
    simp [h, this]

lemma clearFlagN_of_not {f n : Nat} (h : isFlagSetN f n = false) : clearFlagN f n = f := by
  simp [clearFlagN, h]

lemma testBit_chunk_sub {k : Nat} (q r : Nat) (hr : r < 2 ^ (k + 1))
    (hrk : r.testBit k = true) (i : Nat) :
    (2 ^ (k + 1) * q + r - 2 ^ k).testBit i =
      if i = k then false else (2 ^ (k + 1) * q + r).testBit i := by
  have hge : 2 ^ k ≤ r := Nat.testBit_implies_ge hrk
  have hkk : (2 : Nat) ^ k < 2 ^ (k + 1) := by
    have : (2 : Nat) ^ (k + 1) = 2 ^ k * 2 := by ring
    omega
  have hv : r - 2 ^ k < 2 ^ (k + 1) := by omega
  have hsub : 2 ^ (k + 1) * q + r - 2 ^ k = 2 ^ (k + 1) * q + (r - 2 ^ k) := by omega
  rw [hsub, Nat.testBit_mul_pow_two_add q hv i, Nat.testBit_mul_pow_two_add q hr i]
  by_cases hik : i = k
  · subst hik
    have h2 : r - 2 ^ i < 2 ^ i := by omega
    simp [Nat.testBit_lt_two_pow h2]
  · by_cases hlt : i < k + 1
    · have hik2 : i < k := by omega
      have hr2 : 2 ^ k + (r - 2 ^ k) = r := by omega
      have h3 := Nat.testBit_two_pow_add_gt hik2 (r - 2 ^ k)
      rw [hr2] at h3
      simp [hlt, hik, h3]
    · simp [hlt, hik]

lemma testBit_sub_two_pow {f k : Nat} (h : f.testBit k = true) (i : Nat) :
    (f - 2 ^ k).testBit i = if i = k then false else f.testBit i := by
  have h1 := Nat.div_add_mod f (2 ^ (k + 1))
  have hrk : (f % 2 ^ (k + 1)).testBit k = true := by
    rw [Nat.testBit_mod_two_pow]
    simp [h]
  have h2 := testBit_chunk_sub (f / 2 ^ (k + 1)) (f % 2 ^ (k + 1))
    (Nat.mod_lt _ (Nat.two_pow_pos _)) hrk i
  rw [h1] at h2
  exact h2

lemma clearFlagN_testBit {f : Nat} (n : Nat) (hf : f < 2 ^ 64) (i : Nat) :
    (clearFlagN f n).testBit i = if i = n - 1 then false else f.testBit i := by
  unfold clearFlagN
  by_cases hset : isFlagSetN f n
  · rw [if_pos hset, flagBitmask_eq]
    have htb : f.testBit (n - 1) = true := by rw [← isFlagSetN_eq_testBit]; exact hset
    rw [Nat.mod_eq_of_lt (lt_of_le_of_lt (Nat.sub_le f (2 ^ (n - 1))) hf)]
    exact testBit_sub_two_pow htb i
  · rw [if_neg hset]
    have htb : f.testBit (n - 1) = false := by
      rw [← isFlagSetN_eq_testBit]
      exact Bool.eq_false_iff.mpr hset
    by_cases hik : i = n - 1 <;> simp [hik, htb]

lemma setFlagN_lt (f n : Nat) : setFlagN f n < 2 ^ 64 :=
  Nat.mod_lt _ (Nat.two_pow_pos 64)

lemma clearFlagN_lt {f : Nat} (n : Nat) (hf : f < 2 ^ 64) : clearFlagN f n < 2 ^ 64 := by
  unfold clearFlagN
  split
  · exact Nat.mod_lt _ (Nat.two_pow_pos 64)
  · exact hf

lemma isFlagSetN_setFlagN {f : Nat} (m n : Nat) (hf : f < 2 ^ 64)
    (hm1 : 1 ≤ m) (hm : m ≤ 64) (hn1 : 1 ≤ n) :
    isFlagSetN (setFlagN f m) n = if m = n then true else isFlagSetN f n := by
  rw [isFlagSetN_eq_testBit, isFlagSetN_eq_testBit, setFlagN_testBit hf hm]
  by_cases h : m = n
  · simp [h]
  · have : n - 1 ≠ m - 1 := by omega
    simp [h, this]

lemma isFlagSetN_clearFlagN {f : Nat} (m n : Nat) (hf : f < 2 ^ 64)
    (hm1 : 1 ≤ m) (hn1 : 1 ≤ n) :
    isFlagSetN (clearFlagN f m) n = if m = n then false else isFlagSetN f n := by
  rw [isFlagSetN_eq_testBit, isFlagSetN_eq_testBit, clearFlagN_testBit m hf]
  by_cases h : m = n
  · simp [h]
  · have : n - 1 ≠ m - 1 := by omega
    simp [h, this]

lemma setFlagN_idem {f n : Nat} (hf : f < 2 ^ 64) (hn : n ≤ 64) :
    setFlagN (setFlagN f n) n = setFlagN f n := by
  rw [setFlagN_eq_or (setFlagN_lt f n) hn, setFlagN_eq_or hf hn, Nat.or_assoc, Nat.or_self]

lemma clearFlagN_idem {f n : Nat} (hf : f < 2 ^ 64) (_hn1 : 1 ≤ n) :
    clearFlagN (clearFlagN f n) n = clearFlagN f n := by
  apply clearFlagN_of_not
  rw [isFlagSetN_eq_testBit, clearFlagN_testBit n hf]
  simp

lemma isFlagSetN_applyFlagOpsN (ops : List FlagOp) (f n : Nat) (hf : f < 2 ^ 64)
    (hn1 : 1 ≤ n) (hops : ∀ op ∈ ops, op.idxOK = true) :
    isFlagSetN (applyFlagOpsN f ops) n = flagSpecFold (isFlagSetN f n) n ops := by
  induction ops generalizing f with
  | nil => rfl
  | cons op ops ih =>
    have hop := hops op (List.mem_cons_self op ops)
    have hrest : ∀ o ∈ ops, o.idxOK = true := fun o ho => hops o (List.mem_cons_of_mem _ ho)
    cases op with
    | set m =>
      have hm : 1 ≤ m ∧ m ≤ 64 := by simpa [FlagOp.idxOK] using hop
      show isFlagSetN (applyFlagOpsN (setFlagN f m) ops) n
        = flagSpecFold (if m = n then true else isFlagSetN f n) n ops
      rw [ih (setFlagN f m) (setFlagN_lt f m) hrest,
        isFlagSetN_setFlagN m n hf hm.1 hm.2 hn1]
    | clear m =>
      have hm : 1 ≤ m ∧ m ≤ 64 := by simpa [FlagOp.idxOK] using hop
      show isFlagSetN (applyFlagOpsN (clearFlagN f m) ops) n
        = flagSpecFold (if m = n then false else isFlagSetN f n) n ops
      rw [ih (clearFlagN f m) (clearFlagN_lt m hf) hrest,
        isFlagSetN_clearFlagN m n hf hm.1 hn1]

lemma applyFlagOps_flags (h : ImageHeader) (ops : List FlagOp) :
    (h.applyFlagOps ops).flags = applyFlagOpsN h.flags ops := by
  induction ops generalizing h with
  | nil => rfl
  | cons op ops ih =>
    cases op with
    | set n => exact ih (h.setFlag n)
    | clear n => exact ih (h.clearFlag n)

/-- C6: for flag numbers 1..64, setFlag sets exactly bit n-1 and changes
no other bit; clearFlag clears exactly bit n-1 and changes no other bit;
both are idempotent; clearFlag on a clear bit is the identity; clearing
all flags yields zero; and after an arbitrary sequence of setFlag and
clearFlag calls, isFlagSet reports exactly the state the sequence
prescribes for each bit. -/
theorem C6_flag_bit_independence (h : ImageHeader) (n : Nat)
    (hn1 : 1 ≤ n) (hn : n ≤ 64) (hf : h.flags < 2 ^ 64) :
    ((h.setFlag n).isFlagSet n = true
      ∧ ∀ i, i ≠ n - 1 → (h.setFlag n).flags.testBit i = h.flags.testBit i)
    ∧ ((h.clearFlag n).isFlagSet n = false
      ∧ ∀ i, i ≠ n - 1 → (h.clearFlag n).flags.testBit i = h.flags.testBit i)
    ∧ (h.setFlag n).setFlag n = h.setFlag n
    ∧ (h.clearFlag n).clearFlag n = h.clearFlag n
    ∧ (h.isFlagSet n = false → h.clearFlag n = h)
    ∧ (h.clearAllFlags).flags = 0
    ∧ (∀ ops : List FlagOp, (∀ op ∈ ops, op.idxOK = true) →
        (h.applyFlagOps ops).isFlagSet n = flagSpecFold (h.isFlagSet n) n ops) := by
  refine ⟨⟨?_, ?_⟩, ⟨?_, ?_⟩, ?_, ?_, ?_, rfl, ?_⟩
  · rw [ImageHeader.isFlagSet, isFlagSetN_eq_testBit]
    show (setFlagN h.flags n).testBit (n - 1) = true
    rw [setFlagN_testBit hf hn]
    simp
  · intro i hi
    show (setFlagN h.flags n).testBit i = h.flags.testBit i
    rw [setFlagN_testBit hf hn]
    simp [hi]
  · rw [ImageHeader.isFlagSet, isFlagSetN_eq_testBit]
    show (clearFlagN h.flags n).testBit (n - 1) = false
    rw [clearFlagN_testBit n hf]
    simp
  · intro i hi
    show (clearFlagN h.flags n).testBit i = h.flags.testBit i
    rw [clearFlagN_testBit n hf]
    simp [hi]
  · show ImageHeader.setFlag { h with flags := setFlagN h.flags n } n = _
    rw [ImageHeader.setFlag, ImageHeader.setFlag]
    exact congrArg (fun x => { h with flags := x }) (setFlagN_idem hf hn)
  · show ImageHeader.clearFlag { h with flags := clearFlagN h.flags n } n = _
    rw [ImageHeader.clearFlag, ImageHeader.clearFlag]
    exact congrArg (fun x => { h with flags := x }) (clearFlagN_idem hf hn1)
  · intro hns
    rw [ImageHeader.clearFlag, clearFlagN_of_not hns]
  · intro ops hops
    rw [ImageHeader.isFlagSet, applyFlagOps_flags,
      isFlagSetN_applyFlagOpsN ops h.flags n hf hn1 hops]
    rfl

/-- C6 witness: the conjunction instantiated on a fresh header at flag 3. -/
theorem C6_flag_bit_independence_witness :
    ((ImageHeader.new.setFlag 3).isFlagSet 3 = true
      ∧ ∀ i, i ≠ 3 - 1 →
          (ImageHeader.new.setFlag 3).flags.testBit i = ImageHeader.new.flags.testBit i)
    ∧ ((ImageHeader.new.clearFlag 3).isFlagSet 3 = false
      ∧ ∀ i, i ≠ 3 - 1 →
          (ImageHeader.new.clearFlag 3).flags.testBit i = ImageHeader.new.flags.testBit i)
    ∧ (ImageHeader.new.setFlag 3).setFlag 3 = ImageHeader.new.setFlag 3
    ∧ (ImageHeader.new.clearFlag 3).clearFlag 3 = ImageHeader.new.clearFlag 3
    ∧ (ImageHeader.new.isFlagSet 3 = false → ImageHeader.new.clearFlag 3 = ImageHeader.new)
    ∧ (ImageHeader.new.clearAllFlags).flags = 0
    ∧ (∀ ops : List FlagOp, (∀ op ∈ ops, op.idxOK = true) →
        (ImageHeader.new.applyFlagOps ops).isFlagSet 3
          = flagSpecFold (ImageHeader.new.isFlagSet 3) 3 ops) :=
  C6_flag_bit_independence ImageHeader.new 3 (by decide) (by decide) (by decide)

/-- C9: the field-codec maps are strict inverses over the supported
element-kind set: decoding any registered code to its dtype and encoding
back returns the code; encoding any dtype of the codomain and decoding
back returns the dtype; and each map raises TypeError on any input
outside its domain. -/
theorem C9_codec_strict_inverse :
    (∀ k ∈ datatype_codes, ∃ d, get_dtype_from_data_type k = .ok d ∧
        get_data_type_from_dtype d = .ok k)
    ∧ (∀ d : NpDType, (∃ k ∈ datatype_codes, dtype_mapping k = some d) →
        ∃ k, get_data_type_from_dtype d = .ok k ∧ get_dtype_from_data_type k = .ok d)
    ∧ (∀ k : Nat, k ∉ datatype_codes → get_dtype_from_data_type k = .error .typeError)
    ∧ (∀ d : NpDType, (∀ k ∈ datatype_codes, dtype_mapping k ≠ some d) →
        get_data_type_from_dtype d = .error .typeError) := by
  refine ⟨?_, ?_, ?_, ?_⟩
  · intro k hk
    fin_cases hk <;> exact ⟨_, rfl, rfl⟩
  · rintro d ⟨k, hk, hmap⟩
    fin_cases hk <;>
      · simp [dtype_mapping, DATATYPE_USHORT, DATATYPE_SHORT, DATATYPE_UINT,
          DATATYPE_INT, DATATYPE_FLOAT, DATATYPE_DOUBLE, DATATYPE_CXFLOAT,
          DATATYPE_CXDOUBLE] at hmap
        subst hmap
        exact ⟨_, rfl, rfl⟩
  · intro k hk
    simp only [datatype_codes, DATATYPE_USHORT, DATATYPE_SHORT, DATATYPE_UINT,
      DATATYPE_INT, DATATYPE_FLOAT, DATATYPE_DOUBLE, DATATYPE_CXFLOAT, DATATYPE_CXDOUBLE,
      List.mem_cons, List.not_mem_nil, or_false, not_or] at hk
    obtain ⟨h1, h2, h3, h4, h5, h6, h7, h8⟩ := hk
    simp [get_dtype_from_data_type, dtype_mapping, DATATYPE_USHORT, DATATYPE_SHORT,
      DATATYPE_UINT, DATATYPE_INT, DATATYPE_FLOAT, DATATYPE_DOUBLE, DATATYPE_CXFLOAT,
      DATATYPE_CXDOUBLE, h1, h2, h3, h4, h5, h6, h7, h8]
  · intro d hd
    cases d
    case uint16 => exact absurd rfl (hd DATATYPE_USHORT (by decide))
    case int16 => exact absurd rfl (hd DATATYPE_SHORT (by decide))
    case uint32 => exact absurd rfl (hd DATATYPE_UINT (by decide))
    case int64 => exact absurd rfl (hd DATATYPE_INT (by decide))
    case float32 => exact absurd rfl (hd DATATYPE_FLOAT (by decide))
    case float64 => exact absurd rfl (hd DATATYPE_DOUBLE (by decide))
    case complex64 => exact absurd rfl (hd DATATYPE_CXFLOAT (by decide))
    case complex128 => exact absurd rfl (hd DATATYPE_CXDOUBLE (by decide))
    all_goals rfl

/-- C9 witness: the round trip at code 3 and the failure at code 0. -/
theorem C9_codec_strict_inverse_witness :
    (∃ d, get_dtype_from_data_type 3 = .ok d ∧ get_data_type_from_dtype d = .ok 3)
    ∧ get_dtype_from_data_type 0 = .error .typeError :=
  ⟨C9_codec_strict_inverse.1 3 (by decide),
   C9_codec_strict_inverse.2.2.1 0 (by decide)⟩

/-- C3: Image.resize replaces the buffer with the requested shape but
leaves the header untouched, so the header count fields do not follow the
buffer shape: the claimed atomic header update does not happen.  The
concrete clause shows a fresh image resized to 2 channels keeping its old
channels value 0 in the header. -/
theorem C3_resize_not_atomic (img : Image) (nc nz ny nx : Nat) :
    (img.resize nc nz ny nx).data.shape = [nc, nz, ny, nx]
    ∧ (img.resize nc nz ny nx).getHead = img.getHead
    ∧ (Image.new.resize 2 1 1 1).data.shape = [2, 1, 1, 1]
    ∧ (Image.new.resize 2 1 1 1).getHead.channels = 0 :=
  ⟨rfl, rfl, rfl, rfl⟩

lemma npResizeFlat_self (l : List Int) (h0 : 0 < l.length) : npResizeFlat l l.length = l := by
  unfold npResizeFlat
  rw [if_neg (by omega)]
  apply List.ext_getElem
  · simp
  · intro i h1 h2
    simp only [List.getElem_map, List.getElem_range]
    rw [Nat.mod_eq_of_lt h2, List.getD_eq_getElem?_getD, List.getElem?_eq_getElem h2]
    rfl

lemma convertVal_self (d : NpDType) (v : Int) : convertVal d d v = v := by
  simp [convertVal]

/-- C4 counterexample: an image holding the value 5 in a 1x1x1x1 uint16
buffer, given to setHead with a header declaring the same kind and shape,
keeps the value 5: the buffer is not zero-filled and the old contents are
not discarded, contradicting the claim at this input. -/
theorem C4_setHead_counterexample :
    ((Image.from_array { shape := [1, 1, 1, 1], dtype := .uint16, flat := [5] }
        AcquisitionLike.zero [] >>= fun img =>
          img.setHead hdrUShort111).map (fun img => img.data.flat))
      = .ok [5]
    ∧ ([5] : List Int) ≠ [0] := by
  exact ⟨by decide, by decide⟩

/-- C4 amended: setHead replaces the header with a copy of H and re-types
and reshapes the buffer to the element kind and count fields of H, but
the contents follow astype plus np.resize: in particular, when the
element kind is unchanged and the old buffer already has the declared
total size, the old contents are kept verbatim rather than zero-filled. -/
theorem C4_setHead_amended (img : Image) (hdr : ImageHeader) (dt : NpDType)
    (hdt : get_dtype_from_data_type hdr.data_type = .ok dt) :
    ∃ img2, img.setHead hdr = .ok img2
      ∧ img2.head = hdr
      ∧ img2.data.dtype = dt
      ∧ img2.data.shape = [hdr.channels, hdr.matrix_size.getD 2 0,
          hdr.matrix_size.getD 1 0, hdr.matrix_size.getD 0 0]
      ∧ img2.attribute_string = img.attribute_string
      ∧ (img.data.dtype = dt →
          img.data.flat.length = [hdr.channels, hdr.matrix_size.getD 2 0,
            hdr.matrix_size.getD 1 0, hdr.matrix_size.getD 0 0].prod →
          0 < img.data.flat.length →
          img2.data.flat = img.data.flat) := by
  have hstep : img.setHead hdr = .ok
      { head := hdr
        data := { shape := [hdr.channels, hdr.matrix_size.getD 2 0,
                    hdr.matrix_size.getD 1 0, hdr.matrix_size.getD 0 0]
                  dtype := dt
                  flat := npResizeFlat (img.data.flat.map (convertVal img.data.dtype dt))
                    ([hdr.channels, hdr.matrix_size.getD 2 0,
                      hdr.matrix_size.getD 1 0, hdr.matrix_size.getD 0 0].prod) }
        attribute_string := img.attribute_string } := by
    unfold Image.setHead Image.setDataType
    rw [hdt]
    rfl
  refine ⟨_, hstep, rfl, rfl, rfl, rfl, ?_⟩
  intro h1 h2 h3
  show npResizeFlat (img.data.flat.map (convertVal img.data.dtype dt)) _ = img.data.flat
  rw [← h1]
  have hfun : convertVal img.data.dtype img.data.dtype = fun v => v :=
    funext (fun v => convertVal_self _ v)
  have hmap : img.data.flat.map (convertVal img.data.dtype img.data.dtype)
      = img.data.flat := by
    rw [hfun]
    simp
  rw [hmap, ← h2, npResizeFlat_self img.data.flat h3]

/-- C4 witness: the amended statement at a concrete image and header. -/
theorem C4_setHead_amended_witness :
    ∃ img2, imgFive.setHead hdrUShort111 = .ok img2
      ∧ img2.head = hdrUShort111
      ∧ img2.data.dtype = NpDType.uint16
      ∧ img2.data.shape = [hdrUShort111.channels, hdrUShort111.matrix_size.getD 2 0,
          hdrUShort111.matrix_size.getD 1 0, hdrUShort111.matrix_size.getD 0 0]
      ∧ img2.attribute_string = imgFive.attribute_string
      ∧ (imgFive.data.dtype = NpDType.uint16 →
          imgFive.data.flat.length = [hdrUShort111.channels, hdrUShort111.matrix_size.getD 2 0,
            hdrUShort111.matrix_size.getD 1 0, hdrUShort111.matrix_size.getD 0 0].prod →
          0 < imgFive.data.flat.length →
          img2.data.flat = imgFive.data.flat) :=
  C4_setHead_amended imgFive hdrUShort111 NpDType.uint16 (by decide)

/-- C7 counterexample: a zeroed header has a matching attribute string
length (both zero), yet construction fails, because the data_type code 0
is not registered with the field codec: failure is not equivalent to a
length mismatch. -/
theorem C7_from_header_counterexample :
    "".length = ImageHeader.new.attribute_string_len
    ∧ Image.fromHeader ImageHeader.new "" = .error .typeError :=
  ⟨rfl, rfl⟩

/-- C7 amended: construction from a header and an attribute string
succeeds exactly when the header data_type is a registered element kind
and the string length equals attribute_string_len; an unregistered kind
fails with TypeError (checked first), a length mismatch with ValueError;
on failure no record is produced. -/
theorem C7_from_header_amended (head : ImageHeader) (s : String) :
    ((∃ img, Image.fromHeader head s = .ok img) ↔
      ((dtype_mapping head.data_type).isSome ∧ s.length = head.attribute_string_len))
    ∧ (dtype_mapping head.data_type = none →
        Image.fromHeader head s = .error .typeError)
    ∧ ((dtype_mapping head.data_type).isSome →
        s.length ≠ head.attribute_string_len →
        Image.fromHeader head s = .error .valueError) := by
  unfold Image.fromHeader get_dtype_from_data_type
  cases hm : dtype_mapping head.data_type with
  | none => simp [errorBind]
  | some dt =>
    by_cases hl : s.length = head.attribute_string_len
    · simp [okBind, hl]
    · simp [okBind, hl]

/-- C7 witness: a registered header succeeds with a matching empty string;
the zeroed header fails with TypeError. -/
theorem C7_from_header_amended_witness :
    (∃ img, Image.fromHeader hdrUShort111 "" = .ok img)
    ∧ Image.fromHeader ImageHeader.new "" = .error .typeError :=
  ⟨(C7_from_header_amended hdrUShort111 "").1.mpr (by decide),
   (C7_from_header_amended ImageHeader.new "").2.1 (by decide)⟩

/-! Lemmas about row-major enumeration and broadcasting, leading to the
construction-from-array claims. -/

lemma take_add_split {α : Type} (m n : Nat) (l : List α) :
    l.take (m + n) = l.take m ++ (l.drop m).take n := by
  induction m generalizing l with
  | zero => simp
  | succ m ih =>
    cases l with
    | nil => simp
    | cons a l =>
      simp only [List.take_succ_cons, List.drop_succ_cons, Nat.succ_add]
      rw [ih]
      rfl

lemma range_flatMap_chunks {P off : Nat} (l : List Int) :
    ∀ d, off + d * P ≤ l.length →
      (List.range d).flatMap (fun i => (l.drop (off + i * P)).take P)
        = (l.drop off).take (d * P) := by
  intro d
  induction d with
  | zero => simp
  | succ d ih =>
    intro h
    have hmul : (d + 1) * P = d * P + P := by ring
    rw [List.range_succ, List.flatMap_append, ih (by omega), hmul,
      take_add_split (d * P) P (l.drop off), List.drop_drop]
    simp [Nat.add_comm off (d * P)]

lemma map_getD_allIndices (s : List Nat) (l : List Int) :
    ∀ off, off + s.prod ≤ l.length →
      (allIndices s).map (fun idx => l.getD (off + flatIndex s idx) 0)
        = (l.drop off).take s.prod := by
  induction s with
  | nil =>
    intro off h
    simp only [List.prod_nil] at h ⊢
    have hlt : off < l.length := by omega
    simp only [allIndices, flatIndex, List.map_cons, List.map_nil, Nat.add_zero]
    rw [List.getD_eq_getElem?_getD, List.getElem?_eq_getElem hlt,
      List.drop_eq_getElem_cons hlt]
    rfl
  | cons d ds ih =>
    intro off h
    simp only [List.prod_cons] at h
    simp only [allIndices, List.map_flatMap, List.map_map, Function.comp, List.prod_cons]
    have hstep : ∀ i, i < d →
        ((allIndices ds).map (fun t => l.getD (off + flatIndex (d :: ds) (i :: t)) 0))
          = (l.drop (off + i * ds.prod)).take ds.prod := by
      intro i hi
      have hle : (off + i * ds.prod) + ds.prod ≤ l.length := by
        have : (i + 1) * ds.prod ≤ d * ds.prod :=
          Nat.mul_le_mul_right _ (by omega)
        have h2 : i * ds.prod + ds.prod ≤ d * ds.prod := by
          calc i * ds.prod + ds.prod = (i + 1) * ds.prod := by ring
            _ ≤ d * ds.prod := this
        omega
      rw [← ih (off + i * ds.prod) hle]
      apply List.map_congr_left
      intro t _
      have : off + flatIndex (d :: ds) (i :: t) = off + i * ds.prod + flatIndex ds t := by
        simp [flatIndex]
        omega
      rw [this]
    calc (List.range d).flatMap
          (fun i => (allIndices ds).map (fun t => l.getD (off + flatIndex (d :: ds) (i :: t)) 0))
        = (List.range d).flatMap (fun i => (l.drop (off + i * ds.prod)).take ds.prod) := by
          rw [List.flatMap_def, List.flatMap_def]
          congr 1
          apply List.map_congr_left
          intro i hi
          exact hstep i (List.mem_range.mp hi)
      _ = (l.drop off).take (d * ds.prod) := range_flatMap_chunks l d h

lemma pad1_length {k : Nat} {s : List Nat} (h : s.length ≤ k) : (pad1 k s).length = k := by
  simp only [pad1, List.length_append, List.length_replicate]
  omega

lemma pad1_prod (k : Nat) (s : List Nat) : (pad1 k s).prod = s.prod := by
  simp [pad1, List.prod_replicate]

lemma broadcastOK_refl (s : List Nat) : broadcastOKList s s = true := by
  induction s with
  | nil => rfl
  | cons d ds ih =>
    simp only [broadcastOKList, List.zip_cons_cons, List.all_cons] at ih ⊢
    simp [ih]

lemma clampIdx_mem (s : List Nat) : ∀ idx ∈ allIndices s, clampIdx s idx = idx := by
  induction s with
  | nil =>
    intro idx hidx
    simp only [allIndices, List.mem_singleton] at hidx
    subst hidx
    rfl
  | cons d ds ih =>
    intro idx hidx
    simp only [allIndices, List.mem_flatMap, List.mem_map, List.mem_range] at hidx
    obtain ⟨i, hi, t, ht, rfl⟩ := hidx
    show (if d = 1 then 0 else i) :: clampIdx ds t = i :: t
    rw [ih t ht]
    congr 1
    by_cases hd : d = 1
    · subst hd
      simp
      omega
    · simp [hd]

lemma broadcastTo_pad (a : NDArray) (k : Nat) (hwf : a.wellFormed) (hk : a.shape.length ≤ k) :
    broadcastTo a (pad1 k a.shape) = some a.flat := by
  have hlen : (pad1 k a.shape).length = k := pad1_length hk
  unfold broadcastTo
  rw [hlen, if_pos hk, if_pos (broadcastOK_refl _)]
  congr 1
  have h1 : ∀ idx ∈ allIndices (pad1 k a.shape),
      a.flat.getD (flatIndex (pad1 k a.shape) (clampIdx (pad1 k a.shape) idx)) 0
        = a.flat.getD (0 + flatIndex (pad1 k a.shape) idx) 0 := by
    intro idx hidx
    rw [clampIdx_mem _ idx hidx, Nat.zero_add]
  have hle : 0 + (pad1 k a.shape).prod ≤ a.flat.length := by
    rw [pad1_prod, Nat.zero_add]
    exact Nat.le_of_eq hwf.symm
  rw [List.map_congr_left h1, map_getD_allIndices (pad1 k a.shape) a.flat 0 hle,
    List.drop_zero, pad1_prod, ← hwf, List.take_length]

lemma mergeDict_nil (base : List (HField × FieldVal)) : mergeDict base [] = base := by
  simp [mergeDict]

lemma codec_inv (d : NpDType) (k : Nat) (h : get_data_type_from_dtype d = .ok k) :
    get_dtype_from_data_type k = .ok d ∧ k < 2 ^ 16 := by
  cases d <;>
    first
      | (injection h with h2; subst h2; exact ⟨rfl, by decide⟩)
      | exact Except.noConfusion h

/-- How Image.from_array evaluates once the shape format, the element-kind
code, and the broadcast of the array onto the derived buffer shape are
known.  The header holds the truncated stores of the derived values. -/
lemma from_array_ok (a : NDArray) (acq : AcquisitionLike)
    (nch m1 m2 m3 k : Nat) (vals : List Int)
    (hfmt : shape_to_header_format a.shape = .ok (nch, m1, m2, m3))
    (hdt : get_data_type_from_dtype a.dtype = .ok k)
    (hbr : broadcastTo a [truncW 2 nch, truncW 2 m3, truncW 2 m2, truncW 2 m1] = some vals) :
    Image.from_array a acq [] = .ok
      { head := { applyAcqFields acq ImageHeader.new with
                  data_type := truncW 2 k
                  channels := truncW 2 nch
                  matrix_size := truncVec 2 [m1, m2, m3] }
        data := { shape := [truncW 2 nch, truncW 2 m3, truncW 2 m2, truncW 2 m1]
                  dtype := a.dtype
                  flat := vals.map (convertVal a.dtype a.dtype) }
        attribute_string := "" } := by
  obtain ⟨hinv, hk16⟩ := codec_inv a.dtype k hdt
  have hacq : ImageHeader.from_acquisition acq
      [(HField.data_type, FieldVal.scalar k), (HField.channels, FieldVal.scalar nch),
       (HField.matrix_size, FieldVal.vector [m1, m2, m3])]
      = .ok { applyAcqFields acq ImageHeader.new with
              data_type := truncW 2 k
              channels := truncW 2 nch
              matrix_size := truncVec 2 [m1, m2, m3] } := rfl
  have ek : truncW 2 k = k := Nat.mod_eq_of_lt hk16
  have hfrom : Image.fromHeader
      { applyAcqFields acq ImageHeader.new with
        data_type := truncW 2 k
        channels := truncW 2 nch
        matrix_size := truncVec 2 [m1, m2, m3] } ""
      = .ok { head := { applyAcqFields acq ImageHeader.new with
                        data_type := truncW 2 k
                        channels := truncW 2 nch
                        matrix_size := truncVec 2 [m1, m2, m3] }
              data := { shape := [truncW 2 nch, truncW 2 m3, truncW 2 m2, truncW 2 m1]
                        dtype := a.dtype
                        flat := List.replicate
                          ([truncW 2 nch, truncW 2 m3, truncW 2 m2, truncW 2 m1].prod) 0 }
              attribute_string := "" } := by
    unfold Image.fromHeader
    rw [show ({ applyAcqFields acq ImageHeader.new with
        data_type := truncW 2 k
        channels := truncW 2 nch
        matrix_size := truncVec 2 [m1, m2, m3] } : ImageHeader).data_type = k from ek,
      hinv]
    rfl
  unfold Image.from_array
  rw [hfmt]
  simp only [okBind]
  rw [hdt]
  simp only [okBind, mergeDict_nil]
  rw [hacq]
  simp only [okBind]
  rw [hfrom]
  simp only [okBind]
  rw [hbr]

/-- The derived shape format of a rank at most 4 shape with dimensions
below the uint16 range: the buffer shape read back from the header equals
the shape left-padded with singleton dimensions, and no store truncates. -/
lemma shape_fmt_pad (s : List Nat) (hrank : s.length ≤ 4) (hdims : ∀ d ∈ s, d < 2 ^ 16) :
    ∃ nch m1 m2 m3, shape_to_header_format s = .ok (nch, m1, m2, m3)
      ∧ [truncW 2 nch, truncW 2 m3, truncW 2 m2, truncW 2 m1] = pad1 4 s
      ∧ truncW 2 nch = nch ∧ truncW 2 m1 = m1 ∧ truncW 2 m2 = m2 ∧ truncW 2 m3 = m3 := by
  have h1 : truncW 2 1 = 1 := by decide
  match s, hrank with
  | [], _ =>
    exact ⟨1, 1, 1, 1, rfl, by simp [h1, pad1], h1, h1, h1, h1⟩
  | [s0], _ =>
    have e0 : truncW 2 s0 = s0 := Nat.mod_eq_of_lt (hdims s0 (by simp))
    exact ⟨1, s0, 1, 1, rfl, by simp [h1, e0, pad1], h1, e0, h1, h1⟩
  | [s0, s1], _ =>
    have e0 : truncW 2 s0 = s0 := Nat.mod_eq_of_lt (hdims s0 (by simp))
    have e1 : truncW 2 s1 = s1 := Nat.mod_eq_of_lt (hdims s1 (by simp))
    exact ⟨1, s1, s0, 1, rfl, by simp [h1, e0, e1, pad1], h1, e1, e0, h1⟩
  | [s0, s1, s2], _ =>
    have e0 : truncW 2 s0 = s0 := Nat.mod_eq_of_lt (hdims s0 (by simp))
    have e1 : truncW 2 s1 = s1 := Nat.mod_eq_of_lt (hdims s1 (by simp))
    have e2 : truncW 2 s2 = s2 := Nat.mod_eq_of_lt (hdims s2 (by simp))
    exact ⟨1, s2, s1, s0, rfl, by simp [h1, e0, e1, e2, pad1], h1, e2, e1, e0⟩
  | [s0, s1, s2, s3], _ =>
    have e0 : truncW 2 s0 = s0 := Nat.mod_eq_of_lt (hdims s0 (by simp))
    have e1 : truncW 2 s1 = s1 := Nat.mod_eq_of_lt (hdims s1 (by simp))
    have e2 : truncW 2 s2 = s2 := Nat.mod_eq_of_lt (hdims s2 (by simp))
    have e3 : truncW 2 s3 = s3 := Nat.mod_eq_of_lt (hdims s3 (by simp))
    exact ⟨s0, s3, s2, s1, rfl, by simp [e0, e1, e2, e3, pad1], e0, e3, e2, e1⟩

/-- C2 counterexample: from_array on a 2 by 3 uint16 array yields a
buffer of shape 1 by 1 by 2 by 3, not the 2 by 3 shape of the input
array, falsifying shape identity as claimed. -/
theorem C2_from_array_counterexample :
    (Image.from_array { shape := [2, 3], dtype := .uint16, flat := [1, 2, 3, 4, 5, 6] }
        AcquisitionLike.zero []).map (fun img => img.data.shape)
      = .ok [1, 1, 2, 3]
    ∧ ([1, 1, 2, 3] : List Nat) ≠ [2, 3] := by
  exact ⟨by decide, by decide⟩

/-- C2 amended: for every well-formed array of rank at most 4 with
dimensions below 2 ^ 16 and a supported dtype, the buffer of
from_array(A) has the shape of A left-padded with singleton dimensions
to rank 4, holds exactly the values of A, and the header data_type field
carries the code that the field codec assigns to the dtype of A. -/
theorem C2_from_array_shape_values (a : NDArray) (acq : AcquisitionLike) (k : Nat)
    (hwf : a.wellFormed) (hrank : a.shape.length ≤ 4)
    (hdims : ∀ d ∈ a.shape, d < 2 ^ 16)
    (hdt : get_data_type_from_dtype a.dtype = .ok k) :
    ∃ img, Image.from_array a acq [] = .ok img
      ∧ img.data.shape = pad1 4 a.shape
      ∧ img.data.flat = a.flat
      ∧ img.head.data_type = k
      ∧ img.data.dtype = a.dtype := by
  obtain ⟨hinv, hk16⟩ := codec_inv a.dtype k hdt
  obtain ⟨nch, m1, m2, m3, hfmt, hpad, ench, e1, e2, e3⟩ :=
    shape_fmt_pad a.shape hrank hdims
  have hbr : broadcastTo a [truncW 2 nch, truncW 2 m3, truncW 2 m2, truncW 2 m1]
      = some a.flat := by
    rw [hpad]
    exact broadcastTo_pad a 4 hwf hrank
  have hmain := from_array_ok a acq nch m1 m2 m3 k a.flat hfmt hdt hbr
  refine ⟨_, hmain, ?_, ?_, ?_, rfl⟩
  · exact hpad
  · show a.flat.map (convertVal a.dtype a.dtype) = a.flat
    have hfun : convertVal a.dtype a.dtype = fun v => v :=
      funext (fun v => convertVal_self _ v)
    rw [hfun]
    simp
  · exact Nat.mod_eq_of_lt hk16

/-- C2 witness: the amended statement at the 2 by 3 uint16 array. -/
theorem C2_from_array_shape_values_witness :
    ∃ img, Image.from_array { shape := [2, 3], dtype := .uint16, flat := [1, 2, 3, 4, 5, 6] }
        AcquisitionLike.zero [] = .ok img
      ∧ img.data.shape
          = pad1 4 (NDArray.shape { shape := [2, 3], dtype := .uint16, flat := [1, 2, 3, 4, 5, 6] })
      ∧ img.data.flat = [1, 2, 3, 4, 5, 6]
      ∧ img.head.data_type = 1
      ∧ img.data.dtype = NpDType.uint16 :=
  C2_from_array_shape_values
    { shape := [2, 3], dtype := .uint16, flat := [1, 2, 3, 4, 5, 6] }
    AcquisitionLike.zero 1 (by decide) (by decide) (by decide) (by decide)

/-- How Image.from_array evaluates under a channels keyword override: the
merged dict carries the override instead of the derived channel count. -/
lemma from_array_channels_override (a : NDArray) (acq : AcquisitionLike)
    (nch m1 m2 m3 k v : Nat) (vals : List Int)
    (hfmt : shape_to_header_format a.shape = .ok (nch, m1, m2, m3))
    (hdt : get_data_type_from_dtype a.dtype = .ok k)
    (hbr : broadcastTo a [truncW 2 v, truncW 2 m3, truncW 2 m2, truncW 2 m1] = some vals) :
    Image.from_array a acq [(HField.channels, FieldVal.scalar v)] = .ok
      { head := { applyAcqFields acq ImageHeader.new with
                  data_type := truncW 2 k
                  channels := truncW 2 v
                  matrix_size := truncVec 2 [m1, m2, m3] }
        data := { shape := [truncW 2 v, truncW 2 m3, truncW 2 m2, truncW 2 m1]
                  dtype := a.dtype
                  flat := vals.map (convertVal a.dtype a.dtype) }
        attribute_string := "" } := by
  obtain ⟨hinv, hk16⟩ := codec_inv a.dtype k hdt
  have hacq : ImageHeader.from_acquisition acq
      [(HField.data_type, FieldVal.scalar k), (HField.channels, FieldVal.scalar v),
       (HField.matrix_size, FieldVal.vector [m1, m2, m3])]
      = .ok { applyAcqFields acq ImageHeader.new with
              data_type := truncW 2 k
              channels := truncW 2 v
              matrix_size := truncVec 2 [m1, m2, m3] } := rfl
  have ek : truncW 2 k = k := Nat.mod_eq_of_lt hk16
  have hfrom : Image.fromHeader
      { applyAcqFields acq ImageHeader.new with
        data_type := truncW 2 k
        channels := truncW 2 v
        matrix_size := truncVec 2 [m1, m2, m3] } ""
      = .ok { head := { applyAcqFields acq ImageHeader.new with
                        data_type := truncW 2 k
                        channels := truncW 2 v
                        matrix_size := truncVec 2 [m1, m2, m3] }
              data := { shape := [truncW 2 v, truncW 2 m3, truncW 2 m2, truncW 2 m1]
                        dtype := a.dtype
                        flat := List.replicate
                          ([truncW 2 v, truncW 2 m3, truncW 2 m2, truncW 2 m1].prod) 0 }
              attribute_string := "" } := by
    unfold Image.fromHeader
    rw [show ({ applyAcqFields acq ImageHeader.new with
        data_type := truncW 2 k
        channels := truncW 2 v
        matrix_size := truncVec 2 [m1, m2, m3] } : ImageHeader).data_type = k from ek,
      hinv]
    rfl
  unfold Image.from_array
  rw [hfmt]
  simp only [okBind]
  rw [hdt]
  simp only [okBind]
  rw [show mergeDict
      [(HField.data_type, FieldVal.scalar k), (HField.channels, FieldVal.scalar nch),
       (HField.matrix_size, FieldVal.vector [m1, m2, m3])]
      [(HField.channels, FieldVal.scalar v)]
      = [(HField.data_type, FieldVal.scalar k), (HField.channels, FieldVal.scalar v),
         (HField.matrix_size, FieldVal.vector [m1, m2, m3])] from rfl]
  rw [hacq]
  simp only [okBind]
  rw [hfrom]
  simp only [okBind]
  rw [hbr]

/-- How Image.from_array evaluates under a matrix_size keyword override. -/
lemma from_array_matrix_override (a : NDArray) (acq : AcquisitionLike)
    (nch m1 m2 m3 k w1 w2 w3 : Nat) (vals : List Int)
    (hfmt : shape_to_header_format a.shape = .ok (nch, m1, m2, m3))
    (hdt : get_data_type_from_dtype a.dtype = .ok k)
    (hbr : broadcastTo a [truncW 2 nch, truncW 2 w3, truncW 2 w2, truncW 2 w1] = some vals) :
    Image.from_array a acq [(HField.matrix_size, FieldVal.vector [w1, w2, w3])] = .ok
      { head := { applyAcqFields acq ImageHeader.new with
                  data_type := truncW 2 k
                  channels := truncW 2 nch
                  matrix_size := truncVec 2 [w1, w2, w3] }
        data := { shape := [truncW 2 nch, truncW 2 w3, truncW 2 w2, truncW 2 w1]
                  dtype := a.dtype
                  flat := vals.map (convertVal a.dtype a.dtype) }
        attribute_string := "" } := by
  obtain ⟨hinv, hk16⟩ := codec_inv a.dtype k hdt
  have hacq : ImageHeader.from_acquisition acq
      [(HField.data_type, FieldVal.scalar k), (HField.channels, FieldVal.scalar nch),
       (HField.matrix_size, FieldVal.vector [w1, w2, w3])]
      = .ok { applyAcqFields acq ImageHeader.new with
              data_type := truncW 2 k
              channels := truncW 2 nch
              matrix_size := truncVec 2 [w1, w2, w3] } := rfl
  have ek : truncW 2 k = k := Nat.mod_eq_of_lt hk16
  have hfrom : Image.fromHeader
      { applyAcqFields acq ImageHeader.new with
        data_type := truncW 2 k
        channels := truncW 2 nch
        matrix_size := truncVec 2 [w1, w2, w3] } ""
      = .ok { head := { applyAcqFields acq ImageHeader.new with
                        data_type := truncW 2 k
                        channels := truncW 2 nch
                        matrix_size := truncVec 2 [w1, w2, w3] }
              data := { shape := [truncW 2 nch, truncW 2 w3, truncW 2 w2, truncW 2 w1]
                        dtype := a.dtype
                        flat := List.replicate
                          ([truncW 2 nch, truncW 2 w3, truncW 2 w2, truncW 2 w1].prod) 0 }
              attribute_string := "" } := by
    unfold Image.fromHeader
    rw [show ({ applyAcqFields acq ImageHeader.new with
        data_type := truncW 2 k
        channels := truncW 2 nch
        matrix_size := truncVec 2 [w1, w2, w3] } : ImageHeader).data_type = k from ek,
      hinv]
    rfl
  unfold Image.from_array
  rw [hfmt]
  simp only [okBind]
  rw [hdt]
  simp only [okBind]
  rw [show mergeDict
      [(HField.data_type, FieldVal.scalar k), (HField.channels, FieldVal.scalar nch),
       (HField.matrix_size, FieldVal.vector [m1, m2, m3])]
      [(HField.matrix_size, FieldVal.vector [w1, w2, w3])]
      = [(HField.data_type, FieldVal.scalar k), (HField.channels, FieldVal.scalar nch),
         (HField.matrix_size, FieldVal.vector [w1, w2, w3])] from rfl]
  rw [hacq]
  simp only [okBind]
  rw [hfrom]
  simp only [okBind]
  rw [hbr]

/-- C8 counterexample: from_array on a 2 by 3 uint16 array with a channels
override of 5 does not fail: it returns a record whose header channels
field is 5 and whose buffer was broadcast to shape 5 by 1 by 2 by 3. -/
theorem C8_override_counterexample :
    (Image.from_array { shape := [2, 3], dtype := .uint16, flat := [1, 2, 3, 4, 5, 6] }
        AcquisitionLike.zero [(HField.channels, FieldVal.scalar 5)]).map
      (fun img => (img.head.channels, img.data.shape))
      = .ok (5, [5, 1, 2, 3]) := by
  decide

/-- C8 amended: a keyword override of a shape-owning field (channels or
matrix_size) is applied to the header, taking precedence over the derived
value, rather than being rejected; construction then succeeds whenever
the array broadcasts into the overridden buffer shape. -/
theorem C8_shape_override_applied (a : NDArray) (acq : AcquisitionLike)
    (nch m1 m2 m3 k v w1 w2 w3 : Nat) (vals vals2 : List Int)
    (hfmt : shape_to_header_format a.shape = .ok (nch, m1, m2, m3))
    (hdt : get_data_type_from_dtype a.dtype = .ok k)
    (hbrv : broadcastTo a [truncW 2 v, truncW 2 m3, truncW 2 m2, truncW 2 m1] = some vals)
    (hbrw : broadcastTo a [truncW 2 nch, truncW 2 w3, truncW 2 w2, truncW 2 w1] = some vals2) :
    (∃ img, Image.from_array a acq [(HField.channels, FieldVal.scalar v)] = .ok img
      ∧ img.head.channels = truncW 2 v
      ∧ img.data.shape = [truncW 2 v, truncW 2 m3, truncW 2 m2, truncW 2 m1])
    ∧ (∃ img, Image.from_array a acq [(HField.matrix_size, FieldVal.vector [w1, w2, w3])]
        = .ok img
      ∧ img.head.matrix_size = truncVec 2 [w1, w2, w3]
      ∧ img.data.shape = [truncW 2 nch, truncW 2 w3, truncW 2 w2, truncW 2 w1]) := by
  constructor
  · exact ⟨_, from_array_channels_override a acq nch m1 m2 m3 k v vals hfmt hdt hbrv,
      rfl, rfl⟩
  · exact ⟨_, from_array_matrix_override a acq nch m1 m2 m3 k w1 w2 w3 vals2 hfmt hdt hbrw,
      rfl, rfl⟩

/-- C8 witness: both override forms at the 2 by 3 uint16 array with a
channels override of 5 and a matrix_size override of (3, 2, 1). -/
theorem C8_shape_override_applied_witness :
    (∃ img, Image.from_array
        { shape := [2, 3], dtype := .uint16, flat := [1, 2, 3, 4, 5, 6] }
        AcquisitionLike.zero [(HField.channels, FieldVal.scalar 5)] = .ok img
      ∧ img.head.channels = truncW 2 5
      ∧ img.data.shape = [truncW 2 5, truncW 2 1, truncW 2 2, truncW 2 3])
    ∧ (∃ img, Image.from_array
        { shape := [2, 3], dtype := .uint16, flat := [1, 2, 3, 4, 5, 6] }
        AcquisitionLike.zero [(HField.matrix_size, FieldVal.vector [3, 2, 1])] = .ok img
      ∧ img.head.matrix_size = truncVec 2 [3, 2, 1]
      ∧ img.data.shape = [truncW 2 1, truncW 2 1, truncW 2 2, truncW 2 3]) :=
  C8_shape_override_applied
    { shape := [2, 3], dtype := .uint16, flat := [1, 2, 3, 4, 5, 6] }
    AcquisitionLike.zero 1 3 2 1 1 5 3 2 1
    [1, 2, 3, 4, 5, 6, 1, 2, 3, 4, 5, 6, 1, 2, 3, 4, 5, 6, 1, 2, 3, 4, 5, 6, 1, 2, 3, 4, 5, 6]
    [1, 2, 3, 4, 5, 6]
    (by decide) (by decide) (by decide) (by decide)

/-- C5: for every field of the read-only set, writing through the
per-field accessor fails with AttributeError for every value, while
reading always succeeds: matrix_size reads the buffer shape slice and
every other read-only field reads a value copy out of the header. -/
theorem C5_readonly_enforcement (img : Image) (f : HField) (v : FieldVal)
    (hf : f ∈ readonlyFields) :
    img.setField f v = .error .attributeError
    ∧ (f ≠ .matrix_size → img.getField f = getHeaderField img.head f)
    ∧ img.getField .matrix_size = .vector ((img.data.shape.drop 1).take 3) := by
  fin_cases hf <;>
    refine ⟨by simp [Image.setField, readonlyFields], fun h => ?_, rfl⟩
  · rfl
  · exact absurd rfl h
  · rfl
  · rfl

/-- C5 witness: writing data_type on a fresh image fails, reading works. -/
theorem C5_readonly_enforcement_witness :
    Image.new.setField .data_type (.scalar 0) = .error .attributeError
    ∧ (HField.data_type ≠ .matrix_size →
        Image.new.getField .data_type = getHeaderField Image.new.head .data_type)
    ∧ Image.new.getField .matrix_size =
        .vector ((Image.new.data.shape.drop 1).take 3) :=
  C5_readonly_enforcement Image.new .data_type (.scalar 0) (by decide)

/-! Byte-codec round-trip lemmas. -/

lemma encodeLE_length (w n : Nat) : (encodeLE w n).length = w := by
  induction w generalizing n with
  | zero => rfl
  | succ w ih => simp [encodeLE, ih]

lemma decodeLE_encodeLE {w n : Nat} (h : n < 256 ^ w) : decodeLE (encodeLE w n) = n := by
  induction w generalizing n with
  | zero =>
    have : n = 0 := by
      have := h
      simp [Nat.pow_zero] at this
      omega
    subst this
    rfl
  | succ w ih =>
    have hdiv : n / 256 < 256 ^ w := by
      rw [Nat.div_lt_iff_lt_mul (by norm_num)]
      calc n < 256 ^ (w + 1) := h
        _ = 256 ^ w * 256 := by ring
    show decodeLE (n % 256 :: encodeLE w (n / 256)) = n
    have hc : decodeLE (n % 256 :: encodeLE w (n / 256))
        = n % 256 + 256 * decodeLE (encodeLE w (n / 256)) := rfl
    rw [hc, ih hdiv]
    omega

lemma readBytes_append {w : Nat} (chunk rest : List Nat) (hlen : chunk.length = w) :
    readBytes w (chunk ++ rest) = .ok (chunk, rest) := by
  unfold readBytes
  rw [if_pos (by simp [← hlen]), List.take_left' hlen, List.drop_left' hlen]

lemma readWord_enc {w n : Nat} (h : n < 256 ^ w) (rest : List Nat) :
    readWord w (encodeLE w n ++ rest) = .ok (n, rest) := by
  unfold readWord
  rw [readBytes_append (encodeLE w n) rest (encodeLE_length w n)]
  simp only [okBind]
  rw [decodeLE_encodeLE h]

lemma readVec_enc {w : Nat} (l : List Nat) (hb : ∀ x ∈ l, x < 256 ^ w) (rest : List Nat) :
    readVec w l.length (encVec w l ++ rest) = .ok (l, rest) := by
  induction l generalizing rest with
  | nil => simp [encVec, readVec]
  | cons x xs ih =>
    have hx : x < 256 ^ w := hb x (List.mem_cons_self x xs)
    have hxs : ∀ y ∈ xs, y < 256 ^ w := fun y hy => hb y (List.mem_cons_of_mem _ hy)
    show readVec w (xs.length + 1) (encVec w (x :: xs) ++ rest) = .ok (x :: xs, rest)
    have he : encVec w (x :: xs) ++ rest = encodeLE w x ++ (encVec w xs ++ rest) := by
      simp [encVec]
    rw [he]
    show (readWord w (encodeLE w x ++ (encVec w xs ++ rest)) >>= fun p =>
      readVec w xs.length p.2 >>= fun q => .ok (p.1 :: q.1, q.2)) = .ok (x :: xs, rest)
    rw [readWord_enc hx]
    simp only [okBind]
    rw [ih hxs rest]
    rfl

lemma readVec_enc_len {w k : Nat} (l : List Nat) (hlen : l.length = k)
    (hb : ∀ x ∈ l, x < 256 ^ w) (rest : List Nat) :
    readVec w k (encVec w l ++ rest) = .ok (l, rest) := by
  subst hlen
  exact readVec_enc l hb rest

lemma deserializeHeader_serialize (h : ImageHeader) (hv : h.valid) (rest : List Nat) :
    deserializeHeader (serializeHeader h ++ rest) = .ok (h, rest) := by
  obtain ⟨b1, b2, b3, b4, l5, b5, l6, b6, b7, l8, b8, l9, b9, l10, b10, l11, b11,
    l12, b12, b13, b14, b15, b16, b17, b18, b19, l20, b20, b21, b22, b23,
    l24, b24, l25, b25, b26⟩ := hv
  unfold serializeHeader deserializeHeader
  simp only [List.append_assoc]
  rw [readWord_enc b1]
  simp only [okBind]
  rw [readWord_enc b2]
  simp only [okBind]
  rw [readWord_enc b3]
  simp only [okBind]
  rw [readWord_enc b4]
  simp only [okBind]
  rw [readVec_enc_len h.matrix_size l5 b5]
  simp only [okBind]
  rw [readVec_enc_len h.field_of_view l6 b6]
  simp only [okBind]
  rw [readWord_enc b7]
  simp only [okBind]
  rw [readVec_enc_len h.position l8 b8]
  simp only [okBind]
  rw [readVec_enc_len h.read_dir l9 b9]
  simp only [okBind]
  rw [readVec_enc_len h.phase_dir l10 b10]
  simp only [okBind]
  rw [readVec_enc_len h.slice_dir l11 b11]
  simp only [okBind]
  rw [readVec_enc_len h.patient_table_position l12 b12]
  simp only [okBind]
  rw [readWord_enc b13]
  simp only [okBind]
  rw [readWord_enc b14]
  simp only [okBind]
  rw [readWord_enc b15]
  simp only [okBind]
  rw [readWord_enc b16]
  simp only [okBind]
  rw [readWord_enc b17]
  simp only [okBind]
  rw [readWord_enc b18]
  simp only [okBind]
  rw [readWord_enc b19]
  simp only [okBind]
  rw [readVec_enc_len h.physiology_time_stamp l20 b20]
  simp only [okBind]
  rw [readWord_enc b21]
  simp only [okBind]
  rw [readWord_enc b22]
  simp only [okBind]
  rw [readWord_enc b23]
  simp only [okBind]
  rw [readVec_enc_len h.user_int l24 b24]
  simp only [okBind]
  rw [readVec_enc_len h.user_float l25 b25]
  simp only [okBind]
  rw [readWord_enc b26]
  simp only [okBind]

/-- C1: serialization round trip for the image record wire format: for
every valid header, data-buffer byte string of the header-declared length,
and attribute byte string of the declared length, deserializing the
serialized stream returns the identical header (field for field), the
identical buffer bytes, and the identical attribute bytes. -/
theorem C1_serialize_roundtrip (h : ImageHeader) (dataBytes attrBytes : List Nat)
    (itemsize : Nat) (hv : h.valid)
    (hsw : storageWidth h.data_type = some itemsize)
    (hdl : dataBytes.length = expectedDataBytes h itemsize)
    (hal : attrBytes.length = h.attribute_string_len) :
    deserializeImageBytes (serializeImageBytes h dataBytes attrBytes)
      = .ok (h, dataBytes, attrBytes) := by
  unfold serializeImageBytes deserializeImageBytes
  rw [List.append_assoc, deserializeHeader_serialize h hv (dataBytes ++ attrBytes)]
  simp only [okBind]
  rw [hsw]
  have h1 : readBytes (expectedDataBytes h itemsize) (dataBytes ++ attrBytes)
      = .ok (dataBytes, attrBytes) := readBytes_append dataBytes attrBytes hdl
  show (readBytes (expectedDataBytes h itemsize) (dataBytes ++ attrBytes) >>= fun p =>
      readBytes h.attribute_string_len p.2 >>= fun q => Except.ok (h, p.1, q.1))
    = Except.ok (h, dataBytes, attrBytes)
  rw [h1]
  simp only [okBind]
  have h2 : readBytes h.attribute_string_len attrBytes = .ok (attrBytes, []) := by
    unfold readBytes
    rw [if_pos (Nat.le_of_eq hal.symm), ← hal, List.take_length, List.drop_length]
  rw [h2]
  simp only [okBind]

/-- C1 witness: the round trip at a concrete one-element uint16 record
with a two-byte attribute string. -/
theorem C1_serialize_roundtrip_witness :
    deserializeImageBytes
      (serializeImageBytes
        { ImageHeader.new with
          data_type := 1
          channels := 1
          matrix_size := [1, 1, 1]
          attribute_string_len := 2 }
        [7, 9] [65, 66])
      = .ok ({ ImageHeader.new with
          data_type := 1
          channels := 1
          matrix_size := [1, 1, 1]
          attribute_string_len := 2 }, [7, 9], [65, 66]) :=
  C1_serialize_roundtrip
    { ImageHeader.new with
      data_type := 1
      channels := 1
      matrix_size := [1, 1, 1]
      attribute_string_len := 2 }
    [7, 9] [65, 66] 2 (by decide) (by decide) (by decide) (by decide)

/-- C10: the matrix_size accessor returns the trailing three dimensions of
the owned buffer, is unaffected by the stored header matrix_size field,
and matrix_size is excluded from the generated per-field accessors. -/
theorem C10_matrix_size_from_buffer (img : Image) (ms : List Nat) :
    img.getField .matrix_size = .vector ((img.data.shape.drop 1).take 3)
    ∧ Image.getField { img with head := { img.head with matrix_size := ms } } .matrix_size
        = img.getField .matrix_size
    ∧ HField.matrix_size ∉ generatedFields := by
  refine ⟨rfl, rfl, by decide⟩

end Ismrmrd
